import Mathlib

/-!
Verification of the nanoclawbster IPC mailbox, task processor and group
registry against the natural-language specification.

The development shallowly embeds the host-side IPC module (the watcher
loop and processTaskIpc), the group registry helper registerGroup of
src/index.ts, and the filesystem path primitives they rely on.  External
library behaviour (cron-parser, the JavaScript Date parser, shell command
execution, git state) is captured by an explicit environment record so that
theorems quantify over it; the task store (db.ts is not part of the given
sources) is modelled from the spec as a persisted list of task records.
-/

namespace Nanoclawbster

/-- JavaScript truthiness of an optional string field of a parsed JSON
request: the field is present and is a non-empty string. -/
def truthy : Option String → Bool
  | some s => !s.isEmpty
  | none => false

/-- JavaScript parseInt(s, 10): skip leading whitespace, read an optional
sign and then the leading decimal digits, ignoring any trailing characters.
The NaN result (no digits) is modelled as none. -/
def parseIntJS (s : String) : Option Int :=
  let l := s.data.dropWhile (fun c => c = ' ' || c = '\t' || c = '\n' || c = '\r')
  let signAndRest : Int × List Char :=
    match l with
    | '-' :: rest => (-1, rest)
    | '+' :: rest => (1, rest)
    | _ => (1, l)
  let ds := signAndRest.2.takeWhile Char.isDigit
  if ds.isEmpty then none
  else some (signAndRest.1 * Int.ofNat (ds.foldl (fun acc c => acc * 10 + (c.toNat - 48)) 0))

/-- Character-list prefix test, used to model the JavaScript startsWith and
endsWith checks structurally. -/
def isPrefixCharList : List Char → List Char → Bool
  | [], _ => true
  | _ :: _, [] => false
  | a :: as, b :: bs => a == b && isPrefixCharList as bs

/-- JavaScript String.startsWith. -/
def strStartsWith (s p : String) : Bool := isPrefixCharList p.data s.data

/-- JavaScript String.endsWith. -/
def strEndsWith (s suffix : String) : Bool :=
  isPrefixCharList suffix.data.reverse s.data.reverse

/-- Split a character list at every occurrence of the separator, keeping
empty segments, with the same semantics as splitting a string on a
one-character separator. -/
def splitChar (sep : Char) : List Char → List Char → List String
  | acc, [] => [⟨acc.reverse⟩]
  | acc, c :: rest =>
    if c = sep then ⟨acc.reverse⟩ :: splitChar sep [] rest
    else splitChar sep (c :: acc) rest

/-- Split a string at every occurrence of a one-character separator. -/
def splitOnCharStr (sep : Char) (s : String) : List String := splitChar sep [] s.data

/-- Node path.posix.basename: drop trailing separators, then keep the last
path segment.  In particular pathBasename of ".." is ".." and pathBasename
of the empty string is the empty string, exactly as in Node. -/
def pathBasename (s : String) : String :=
  let r := s.data.reverse.dropWhile (fun c => c = '/')
  ⟨(r.takeWhile (fun c => c != '/')).reverse⟩

/-- Segment resolution step of Node path.posix.normalize: empty and dot
segments vanish, a dot-dot segment pops the previous one (or vanishes at
the root of an absolute path). -/
def normSegs (isAbs : Bool) : List String → List String → List String
  | acc, [] => acc.reverse
  | acc, seg :: rest =>
    if seg = "" || seg = "." then normSegs isAbs acc rest
    else if seg = ".." then
      match acc with
      | [] => if isAbs then normSegs isAbs [] rest else normSegs isAbs [".."] rest
      | a :: acc2 =>
        if a = ".." then normSegs isAbs (".." :: a :: acc2) rest
        else normSegs isAbs acc2 rest
    else normSegs isAbs (seg :: acc) rest

/-- Node path.posix.normalize on slash-separated paths. -/
def pathNormalize (s : String) : String :=
  let isAbs := strStartsWith s "/"
  let segs := normSegs isAbs [] (splitOnCharStr '/' s)
  let body := String.intercalate "/" segs
  if isAbs then (if body = "" then "/" else "/" ++ body)
  else (if body = "" then "." else body)

/-- Node path.posix.join of a list of parts: drop empty parts, join with a
slash, normalize. -/
def pathJoinList (parts : List String) : String :=
  let joined := String.intercalate "/" (parts.filter (fun p => p ≠ ""))
  if joined = "" then "." else pathNormalize joined

/-- Node path.posix.join of two parts. -/
def pathJoin (a b : String) : String := pathJoinList [a, b]

/-- Substring containment, modelling the JavaScript String.includes used on
the git diff output. -/
def containsSubstr (s pat : String) : Bool := decide (List.IsInfix pat.data s.data)

/-- A registered conversation (types.ts RegisteredGroup): the jid-keyed
registry value holding the workspace folder that acts as the namespace. -/
structure RegisteredGroup where
  name : String
  folder : String
  trigger : String
  added_at : String := ""
  containerConfig : Option String := none
  requiresTrigger : Option Bool := none
deriving Repr, DecidableEq

/-- A persisted task record, with the exact fields createTask receives in
processTaskIpc. -/
structure Task where
  id : String
  group_folder : String
  chat_jid : String
  prompt : String
  schedule_type : String
  schedule_value : String
  context_mode : String
  next_run : Option String
  status : String
  created_at : String
deriving Repr, DecidableEq

/-- The parsed JSON payload of a task-queue IPC request, with the fields the
host destructures in processTaskIpc plus the payload-declared identity
fields (groupFolder, isMain) that the container writes into requests but the
host never reads. -/
structure TaskIpcData where
  type : String
  taskId : Option String := none
  prompt : Option String := none
  schedule_type : Option String := none
  schedule_value : Option String := none
  context_mode : Option String := none
  groupFolder : Option String := none
  chatJid : Option String := none
  targetJid : Option String := none
  branch : Option String := none
  jid : Option String := none
  name : Option String := none
  folder : Option String := none
  trigger : Option String := none
  requiresTrigger : Option Bool := none
  containerConfig : Option String := none
  isMain : Option Bool := none
deriving Repr, DecidableEq

/-- The parsed JSON payload of a messages-queue IPC request.  Non-string
entries of files are dropped by the host filter, so files is modelled as a
list of strings. -/
structure MessageIpcData where
  type : String
  chatJid : Option String := none
  text : Option String := none
  files : Option (List String) := none
  sender : Option String := none
  groupFolder : Option String := none
deriving Repr, DecidableEq

/-- Host state touched by processTaskIpc: the jid-keyed conversation
registry and the persisted task store.  Modelled from the spec: db.ts is not
under the given sources; per spec section 3 the task store is the persisted
list of Task records. -/
structure HostState where
  registeredGroups : List (String × RegisteredGroup)
  tasks : List Task
deriving Repr, DecidableEq

/-- Observable side effects of one processTaskIpc call: shell commands
attempted (builds, git, docker), whether the process exits, whether group
metadata was synced and a snapshot written, and the test-build result
artifact. -/
structure IpcEffects where
  buildCommands : List String := []
  exited : Bool := false
  syncedMetadata : Bool := false
  wroteSnapshot : Bool := false
  buildResult : Option Bool := none
deriving Repr, DecidableEq

/-- No observable side effect. -/
def noEffects : IpcEffects := {}

/-- External environment of the IPC task processor.  cronNext models
cron-parser (none when the expression does not parse, next occurrence in
epoch milliseconds otherwise); parseDate models the JavaScript Date parser
under the configured schedule time zone (none for an invalid instant);
isoOfMs is the canonical toISOString serialization; execOk tells whether a
given shell command succeeds; gitHead is the rev-parse result.
isValidGroupFolder is modelled from the spec: group-folder.ts is not under
the given sources, and the spec only calls it a safety check on folder
names, so it is kept opaque as an arbitrary boolean predicate. -/
structure IpcEnv where
  cronNext : String → Option Nat
  parseDate : String → Option Nat
  now : Nat
  isoOfMs : Nat → String
  randSuffix : String
  isValidGroupFolder : String → Bool
  execOk : String → Bool
  gitHead : Option String
  diffOutput : String
  devWorkspaceExists : Bool

/-- Modelled from the spec: db.ts is not under the given sources; getTaskById
looks a task up by id in the persisted store. -/
def getTaskById (tasks : List Task) (id : String) : Option Task :=
  tasks.find? (fun t => t.id == id)

/-- Modelled from the spec: db.ts is not under the given sources; updateTask
with a status patch rewrites the status of the matching record. -/
def updateTaskStatus (tasks : List Task) (id status : String) : List Task :=
  tasks.map (fun t => if t.id == id then { t with status := status } else t)

/-- Modelled from the spec: db.ts is not under the given sources; deleteTask
removes the matching record. -/
def deleteTaskById (tasks : List Task) (id : String) : List Task :=
  tasks.filter (fun t => t.id != id)

/-- Modelled from the spec: db.ts is not under the given sources; createTask
appends the new record to the persisted store. -/
def createTask (tasks : List Task) (t : Task) : List Task := tasks ++ [t]

/-- Lookup of registeredGroups[jid]. -/
def lookupGroup (regs : List (String × RegisteredGroup)) (jid : String) :
    Option RegisteredGroup :=
  (regs.find? (fun p => p.1 == jid)).map (fun p => p.2)

/-- The next-run computation of the schedule_task case, including its early
rejection: none means the case breaks with no record created (invalid cron,
invalid or non-positive interval, invalid instant); some nr means a record
is created with next_run nr.  A schedule_type outside the three known ones
falls through the if chain with nextRun still null, as in the source. -/
def computeNextRun (env : IpcEnv) (scheduleType scheduleValue : String) :
    Option (Option String) :=
  if scheduleType = "cron" then
    match env.cronNext scheduleValue with
    | some t => some (some (env.isoOfMs t))
    | none => none
  else if scheduleType = "interval" then
    match parseIntJS scheduleValue with
    | some ms => if ms ≤ 0 then none else some (some (env.isoOfMs (env.now + ms.toNat)))
    | none => none
  else if scheduleType = "once" then
    match env.parseDate scheduleValue with
    | some t => some (some (env.isoOfMs t))
    | none => none
  else some none

/-- The schedule_task case of processTaskIpc. -/
def handleScheduleTask (env : IpcEnv) (d : TaskIpcData) (sourceGroup : String)
    (isMain : Bool) (st : HostState) : HostState × IpcEffects :=
  if truthy d.prompt && truthy d.schedule_type && truthy d.schedule_value &&
      truthy d.targetJid then
    let targetJid := d.targetJid.getD ""
    match lookupGroup st.registeredGroups targetJid with
    | none => (st, noEffects)
    | some targetGroupEntry =>
      let targetFolder := targetGroupEntry.folder
      if !isMain && targetFolder != sourceGroup then (st, noEffects)
      else
        let scheduleType := d.schedule_type.getD ""
        let scheduleValue := d.schedule_value.getD ""
        match computeNextRun env scheduleType scheduleValue with
        | none => (st, noEffects)
        | some nextRun =>
          let contextMode :=
            if d.context_mode == some "group" || d.context_mode == some "isolated"
            then d.context_mode.getD "isolated" else "isolated"
          let task : Task :=
            { id := "task-" ++ toString env.now ++ "-" ++ env.randSuffix
              group_folder := targetFolder
              chat_jid := targetJid
              prompt := d.prompt.getD ""
              schedule_type := scheduleType
              schedule_value := scheduleValue
              context_mode := contextMode
              next_run := nextRun
              status := "active"
              created_at := env.isoOfMs env.now }
          ({ st with tasks := createTask st.tasks task }, noEffects)
  else (st, noEffects)

/-- The pause_task case of processTaskIpc. -/
def handlePauseTask (d : TaskIpcData) (sourceGroup : String) (isMain : Bool)
    (st : HostState) : HostState × IpcEffects :=
  if truthy d.taskId then
    let tid := d.taskId.getD ""
    match getTaskById st.tasks tid with
    | some task =>
      if isMain || task.group_folder == sourceGroup then
        ({ st with tasks := updateTaskStatus st.tasks tid "paused" }, noEffects)
      else (st, noEffects)
    | none => (st, noEffects)
  else (st, noEffects)

/-- The resume_task case of processTaskIpc. -/
def handleResumeTask (d : TaskIpcData) (sourceGroup : String) (isMain : Bool)
    (st : HostState) : HostState × IpcEffects :=
  if truthy d.taskId then
    let tid := d.taskId.getD ""
    match getTaskById st.tasks tid with
    | some task =>
      if isMain || task.group_folder == sourceGroup then
        ({ st with tasks := updateTaskStatus st.tasks tid "active" }, noEffects)
      else (st, noEffects)
    | none => (st, noEffects)
  else (st, noEffects)

/-- The cancel_task case of processTaskIpc. -/
def handleCancelTask (d : TaskIpcData) (sourceGroup : String) (isMain : Bool)
    (st : HostState) : HostState × IpcEffects :=
  if truthy d.taskId then
    let tid := d.taskId.getD ""
    match getTaskById st.tasks tid with
    | some task =>
      if isMain || task.group_folder == sourceGroup then
        ({ st with tasks := deleteTaskById st.tasks tid }, noEffects)
      else (st, noEffects)
    | none => (st, noEffects)
  else (st, noEffects)

/-- The refresh_groups case of processTaskIpc: only the main group may force
a metadata sync and snapshot write. -/
def handleRefreshGroups (isMain : Bool) (st : HostState) : HostState × IpcEffects :=
  if isMain then (st, { noEffects with syncedMetadata := true, wroteSnapshot := true })
  else (st, noEffects)

/-- The registry update done by the deps.registerGroup callback: an upsert
of the jid-keyed conversation registry. -/
def insertRegisteredGroup (regs : List (String × RegisteredGroup)) (jid : String)
    (g : RegisteredGroup) : List (String × RegisteredGroup) :=
  if regs.any (fun p => p.1 == jid) then
    regs.map (fun p => if p.1 == jid then (jid, g) else p)
  else regs ++ [(jid, g)]

/-- The register_group case of processTaskIpc: only the main group may
register, the required fields must be present and the folder must pass the
safety check. -/
def handleRegisterGroup (env : IpcEnv) (d : TaskIpcData) (isMain : Bool)
    (st : HostState) : HostState × IpcEffects :=
  if !isMain then (st, noEffects)
  else if truthy d.jid && truthy d.name && truthy d.folder && truthy d.trigger then
    if !(env.isValidGroupFolder (d.folder.getD "")) then (st, noEffects)
    else
      let newGroup : RegisteredGroup :=
        { name := d.name.getD ""
          folder := d.folder.getD ""
          trigger := d.trigger.getD ""
          added_at := env.isoOfMs env.now
          containerConfig := d.containerConfig
          requiresTrigger := d.requiresTrigger }
      ({ st with registeredGroups :=
          insertRegisteredGroup st.registeredGroups (d.jid.getD "") newGroup },
        noEffects)
  else (st, noEffects)

/-- The restart case of processTaskIpc: recompile (failure is caught and
ignored) and exit the process.  The source performs no privilege check in
this case. -/
def handleRestart (st : HostState) : HostState × IpcEffects :=
  (st, { noEffects with buildCommands := ["npm run build"], exited := true })

/-- The rebuild case of processTaskIpc: rebuild the agent image (pruning
only after a successful build), recompile, and exit the process.  The source
performs no privilege check in this case. -/
def handleRebuild (env : IpcEnv) (st : HostState) : HostState × IpcEffects :=
  let dockerCmd := "docker build -t nanoclawbster-agent:latest ."
  let cmds :=
    if env.execOk dockerCmd then [dockerCmd, "docker image prune -f", "npm run build"]
    else [dockerCmd, "npm run build"]
  (st, { noEffects with buildCommands := cmds, exited := true })

/-- The test_container_build case of processTaskIpc: main group only,
non-destructive, writes a result artifact and keeps the process running. -/
def handleTestContainerBuild (env : IpcEnv) (isMain : Bool) (st : HostState) :
    HostState × IpcEffects :=
  if !isMain then (st, noEffects)
  else
    let cmd := "docker build -t nanoclawbster-agent:test ."
    if env.execOk cmd then
      (st, { noEffects with
              buildCommands := [cmd, "docker rmi nanoclawbster-agent:test"]
              buildResult := some true })
    else
      (st, { noEffects with buildCommands := [cmd], buildResult := some false })

/-- Branch-name sanitization of pull_and_deploy: keep only characters safe
in a git ref. -/
def sanitizeBranch (s : String) : String :=
  ⟨s.data.filter (fun c =>
    c.isAlpha || c.isDigit || c = '.' || c = '_' || c = '-' || c = '/')⟩

/-- The 40-hex-digit check applied to the rev-parse output. -/
def isHex40 (s : String) : Bool :=
  s.length == 40 && s.data.all (fun c => c.isDigit || ('a' ≤ c && c ≤ 'f'))

/-- The pull_and_deploy case of processTaskIpc: main group only; save HEAD,
fetch and reset, reinstall when package files changed, build with rollback
on failure, rebuild the image when container files changed, sync the dev
workspace, and exit for the supervised restart. -/
def handlePullAndDeploy (env : IpcEnv) (d : TaskIpcData) (isMain : Bool)
    (st : HostState) : HostState × IpcEffects :=
  if !isMain then (st, noEffects)
  else
    let rawBranch := if truthy d.branch then d.branch.getD "" else "main"
    let branch := sanitizeBranch rawBranch
    if branch = "" then (st, noEffects)
    else
      let revParse := ["git rev-parse HEAD"]
      match env.gitHead with
      | none => (st, { noEffects with buildCommands := revParse })
      | some prevHead =>
        if !(isHex40 prevHead) then (st, { noEffects with buildCommands := revParse })
        else
          let fetchCmd := "git fetch origin " ++ branch
          if !(env.execOk fetchCmd) then
            (st, { noEffects with buildCommands := revParse ++ [fetchCmd] })
          else
            let resetCmd := "git reset --hard origin/" ++ branch
            if !(env.execOk resetCmd) then
              (st, { noEffects with buildCommands := revParse ++ [fetchCmd, resetCmd] })
            else
              let diffCmd := "git diff " ++ prevHead ++ " HEAD --name-only"
              let cmds1 := revParse ++ [fetchCmd, resetCmd, diffCmd]
              let cmds2 :=
                if containsSubstr env.diffOutput "package.json" ||
                    containsSubstr env.diffOutput "package-lock.json"
                then cmds1 ++ ["npm install"] else cmds1
              let buildCmd := "npm run build"
              if !(env.execOk buildCmd) then
                let rollbackCmd := "git reset --hard " ++ prevHead
                let cmds3 := cmds2 ++ [buildCmd, rollbackCmd]
                let cmds4 :=
                  if env.execOk rollbackCmd then cmds3 ++ ["npm install", buildCmd]
                  else cmds3
                let cmds5 :=
                  if env.devWorkspaceExists then cmds4 ++ [fetchCmd, resetCmd] else cmds4
                (st, { noEffects with buildCommands := cmds5, exited := true })
              else
                let cmds3 := cmds2 ++ [buildCmd, diffCmd]
                let dockerCmd := "docker build -t nanoclawbster-agent:latest ."
                let cmds4 :=
                  if (splitOnCharStr '\n' env.diffOutput).any (fun f => strStartsWith f "container/")
                  then
                    if env.execOk dockerCmd then cmds3 ++ [dockerCmd, "docker image prune -f"]
                    else cmds3 ++ [dockerCmd]
                  else cmds3
                let cmds5 :=
                  if env.devWorkspaceExists then cmds4 ++ [fetchCmd, resetCmd] else cmds4
                (st, { noEffects with buildCommands := cmds5, exited := true })

/-- The switch of processTaskIpc: dispatch on the action type written in the
request, with the verified source namespace and its isMain flag passed in
from the watcher. -/
def processTaskIpc (env : IpcEnv) (d : TaskIpcData) (sourceGroup : String)
    (isMain : Bool) (st : HostState) : HostState × IpcEffects :=
  if d.type = "schedule_task" then handleScheduleTask env d sourceGroup isMain st
  else if d.type = "pause_task" then handlePauseTask d sourceGroup isMain st
  else if d.type = "resume_task" then handleResumeTask d sourceGroup isMain st
  else if d.type = "cancel_task" then handleCancelTask d sourceGroup isMain st
  else if d.type = "refresh_groups" then handleRefreshGroups isMain st
  else if d.type = "register_group" then handleRegisterGroup env d isMain st
  else if d.type = "restart" then handleRestart st
  else if d.type = "rebuild" then handleRebuild env st
  else if d.type = "test_container_build" then handleTestContainerBuild env isMain st
  else if d.type = "pull_and_deploy" then handlePullAndDeploy env d isMain st
  else (st, noEffects)

/-- The watcher's computation of the privilege flag: the enclosing namespace
directory equals the configured main group folder. -/
def watcherIsMain (sourceGroup mainGroupFolder : String) : Bool :=
  sourceGroup == mainGroupFolder

/-- Processing of one parsed messages-queue request by the watcher: type and
required fields checked, then the authorization decision (main namespace, or
the target jid resolves to a group owned by the source namespace), then
attachment resolution against the namespace's own attachments directory.
The result is the sendMessage call made, or none when nothing is sent. -/
def processMessageIpc (fsys : List String) (ipcBaseDir : String)
    (regs : List (String × RegisteredGroup)) (sourceGroup : String) (isMain : Bool)
    (d : MessageIpcData) : Option (String × String × List String) :=
  if d.type = "message" && truthy d.chatJid && truthy d.text then
    let chatJid := d.chatJid.getD ""
    let authorized :=
      isMain || (match lookupGroup regs chatJid with
                 | some g => g.folder == sourceGroup
                 | none => false)
    if authorized then
      let attachmentsDir := pathJoinList [ipcBaseDir, sourceGroup, "attachments"]
      let resolvedFiles :=
        (((d.files.getD []).filter (fun f => pathBasename f == f)).map
          (fun f => pathJoin attachmentsDir f)).filter (fun p => fsys.contains p)
      some (chatJid, d.text.getD "", resolvedFiles)
    else none
  else none

/-- The watcher's selection of pending request files from one sub-queue
directory listing: readdirSync followed by the json filter, in listing
order — the source applies no sort. -/
def listQueueFiles (listing : List String) : List String :=
  listing.filter (fun f => strEndsWith f ".json")

/-- Lifecycle outcome of one request file during a poll. -/
inductive FileOutcome
  | deleted
  | movedToErrors
  | leftInPlace
deriving Repr, DecidableEq

/-- File lifecycle of one poll over a namespace's messages sub-queue, in
listing order.  A file whose JSON does not parse, or whose processing
throws, is renamed into the errors namespace (it still exists, since the
unlink comes after processing); otherwise it is unlinked. -/
def runMessagesQueue (parses throws : String → Bool) :
    List String → List (String × FileOutcome)
  | [] => []
  | f :: rest =>
    if !(parses f) then (f, FileOutcome.movedToErrors) :: runMessagesQueue parses throws rest
    else if throws f then (f, FileOutcome.movedToErrors) :: runMessagesQueue parses throws rest
    else (f, FileOutcome.deleted) :: runMessagesQueue parses throws rest

/-- File lifecycle of one poll over a namespace's tasks sub-queue, in
listing order.  The source unlinks each task file right after parsing and
before processing (so that exiting handlers never leave the file behind);
when processing then throws, the catch block's rename into the errors
namespace fails because the file no longer exists, and that failure
propagates out of the per-file loop, leaving the remaining files in place
until the next poll.  A file that exits the process likewise leaves the
remaining files in place. -/
def runTasksQueue (parses exits throws : String → Bool) :
    List String → List (String × FileOutcome)
  | [] => []
  | f :: rest =>
    if !(parses f) then (f, FileOutcome.movedToErrors) :: runTasksQueue parses exits throws rest
    else if exits f then
      (f, FileOutcome.deleted) :: rest.map (fun g => (g, FileOutcome.leftInPlace))
    else if throws f then
      (f, FileOutcome.deleted) :: rest.map (fun g => (g, FileOutcome.leftInPlace))
    else (f, FileOutcome.deleted) :: runTasksQueue parses exits throws rest

/-- Result record of registerGroup in src/index.ts. -/
structure RegisterResult where
  success : Bool
  alreadyExisted : Bool
deriving Repr, DecidableEq

/-- registerGroup of src/index.ts: load the persisted group list, return
early when a group with the same folder already exists, otherwise append
and save. -/
def registerGroup (groups : List RegisteredGroup) (group : RegisteredGroup) :
    List RegisteredGroup × RegisterResult :=
  match groups.find? (fun g => g.folder == group.folder) with
  | some _ => (groups, { success := true, alreadyExisted := true })
  | none => (groups ++ [group], { success := true, alreadyExisted := false })

/-- A concrete environment for the closed instances below: no cron string
parses, exactly the instant of the once test value parses, every shell
command succeeds, and rev-parse fails. -/
def envC : IpcEnv :=
  { cronNext := fun _ => none
    parseDate := fun s => if s = "2026-02-01T15:30:00" then some 1769959800000 else none
    now := 1700000000000
    isoOfMs := fun n => "iso-" ++ toString n
    randSuffix := "abc123"
    isValidGroupFolder := fun _ => true
    execOk := fun _ => true
    gitHead := none
    diffOutput := ""
    devWorkspaceExists := false }

/-- Empty host state. -/
def st0 : HostState := { registeredGroups := [], tasks := [] }

/-- A registered non-main conversation with folder bob. -/
def gBob : RegisteredGroup := { name := "Bob", folder := "bob", trigger := "@A" }

/-- Host state in which the jid of bob's conversation is registered. -/
def stBob : HostState := { registeredGroups := [("wa:bob", gBob)], tasks := [] }

/-- A sample group used to instantiate the registerGroup theorem. -/
def gAlpha : RegisteredGroup := { name := "Alpha", folder := "alpha", trigger := "@A" }

/-- The claim's validity condition on a schedule value for its type, written
in terms of the same external parsers the source calls: a cron string that
parses, an interval that parses to a strictly positive number of
milliseconds, or a once value that parses to a valid instant. -/
def scheduleValueOk (env : IpcEnv) (scheduleType scheduleValue : String) : Bool :=
  if scheduleType = "cron" then (env.cronNext scheduleValue).isSome
  else if scheduleType = "interval" then
    match parseIntJS scheduleValue with
    | some ms => decide (0 < ms)
    | none => false
  else if scheduleType = "once" then (env.parseDate scheduleValue).isSome
  else false

/-- Filesystem for the attachment counterexample: the namespace directory of
alice and its attachments directory exist (both necessarily do while the
watcher is processing alice's queue). -/
def fsC : List String := ["/data/ipc/alice", "/data/ipc/alice/attachments"]

/-- Registry binding the jid of alice's chat to the alice folder. -/
def regsC : List (String × RegisteredGroup) :=
  [("dc:1", { name := "Alice", folder := "alice", trigger := "@A" })]

/-- An authorized message request whose attachment list holds the traversal
entry dot-dot. -/
def msgDotDot : MessageIpcData :=
  { type := "message", chatJid := some "dc:1", text := some "hi", files := some [".."] }

/-- Filesystem holding one real attachment of alice. -/
def fsC2 : List String := ["/data/ipc/alice/attachments/report.pdf"]

/-- An authorized message request attaching an existing bare filename. -/
def msgGood : MessageIpcData :=
  { type := "message", chatJid := some "dc:1", text := some "hi",
    files := some ["report.pdf"] }

/-- A schedule_task request of alice targeting bob's jid. -/
def dC3 : TaskIpcData :=
  { type := "schedule_task", prompt := some "do it", schedule_type := some "cron",
    schedule_value := some "0 9 * * *", targetJid := some "wa:bob" }

/-- A schedule_task request of bob for itself with a non-positive interval. -/
def dC4 : TaskIpcData :=
  { type := "schedule_task", prompt := some "do it", schedule_type := some "interval",
    schedule_value := some "0", targetJid := some "wa:bob" }

/-- A schedule_task request of bob for itself with the once test value. -/
def dC6 : TaskIpcData :=
  { type := "schedule_task", prompt := some "do it", schedule_type := some "once",
    schedule_value := some "2026-02-01T15:30:00", targetJid := some "wa:bob" }

/-- C1: the spec claims that every privileged-only action (register_group,
refresh_groups, restart, rebuild, pull_and_deploy, test_container_build)
submitted from a non-main namespace is rejected with no state mutation, no
build command and no process exit.  The source omits the privilege check in
the restart and rebuild cases: a restart request arriving in the non-main
namespace alice runs the build command and exits the process, and a rebuild
request does the same after rebuilding the image. -/
theorem C1_restart_rebuild_skip_privilege_check :
    (processTaskIpc envC { type := "restart" } "alice" (watcherIsMain "alice" "main") st0).2.exited = true
    ∧ (processTaskIpc envC { type := "restart" } "alice" (watcherIsMain "alice" "main") st0).2.buildCommands = ["npm run build"]
    ∧ (processTaskIpc envC { type := "rebuild" } "alice" (watcherIsMain "alice" "main") st0).2.exited = true := by
  exact ⟨rfl, rfl, rfl⟩

/-- C5: the spec claims every malformed or throwing request is moved to the
errors namespace.  In the tasks sub-queue the file is unlinked before
processing, so when processing throws, the rename into the errors namespace
fails on the already-deleted file and aborts the rest of that namespace's
loop for this poll: the throwing request is consumed but never lands in the
errors namespace, and the following file is left in place.  The messages
sub-queue, whose unlink comes after processing, does move a throwing
request to the errors namespace. -/
theorem C5_throwing_task_request_not_moved_to_errors :
    runTasksQueue (fun _ => true) (fun _ => false) (fun _ => true) ["a.json", "b.json"]
      = [("a.json", FileOutcome.deleted), ("b.json", FileOutcome.leftInPlace)]
    ∧ runMessagesQueue (fun _ => true) (fun _ => true) ["c.json"]
      = [("c.json", FileOutcome.movedToErrors)] := by
  exact ⟨rfl, rfl⟩

/-- C7: the spec claims each sub-queue is drained in filename order, so
earlier-timestamp filenames are acted on first.  The source filters the
directory listing but never sorts it, so with a listing that is not already
sorted the files are processed in listing order: here the file whose
filename embeds the later timestamp 20 is processed before the one
embedding the earlier timestamp 10 although its filename is greater. -/
theorem C7_processing_follows_listing_order_not_filename_order :
    listQueueFiles ["20-b.json", "10-a.json"] = ["20-b.json", "10-a.json"]
    ∧ ("10-a.json" < "20-b.json") := by
  refine ⟨by decide, ?_⟩
  rw [String.lt_iff_toList_lt]
  decide

/-- C10: registerGroup is idempotent on the group's folder: a group whose
folder is already present leaves the persisted list unchanged and reports
alreadyExisted, and a group with a new folder is appended and reported as
new, with success in both cases. -/
theorem C10_registerGroup_idempotent (groups : List RegisteredGroup) (g : RegisteredGroup) :
    ((∃ g2 ∈ groups, g2.folder = g.folder) →
        registerGroup groups g = (groups, { success := true, alreadyExisted := true }))
    ∧ ((∀ g2 ∈ groups, g2.folder ≠ g.folder) →
        registerGroup groups g = (groups ++ [g], { success := true, alreadyExisted := false })) := by
  constructor
  · rintro ⟨g2, hg2, hfold⟩
    rcases hf : groups.find? (fun x => x.folder == g.folder) with _ | g3
    · exact absurd (by simp [hfold]) (List.find?_eq_none.mp hf g2 hg2)
    · simp [registerGroup, hf]
  · intro hall
    have hf : groups.find? (fun x => x.folder == g.folder) = none :=
      List.find?_eq_none.mpr (fun g2 hg2 => by simpa using hall g2 hg2)
    simp [registerGroup, hf]

/-- Closed instance of the registerGroup idempotence theorem. -/
theorem C10_registerGroup_idempotent_witness :
    registerGroup [gAlpha] gAlpha = ([gAlpha], { success := true, alreadyExisted := true })
    ∧ registerGroup [] gAlpha = ([gAlpha], { success := true, alreadyExisted := false }) :=
  ⟨(C10_registerGroup_idempotent [gAlpha] gAlpha).1 ⟨gAlpha, by simp, rfl⟩,
   (C10_registerGroup_idempotent [] gAlpha).2 (by simp)⟩

/-- Characters of a basename never include the separator. -/
theorem pathBasename_no_slash (s : String) : ∀ c ∈ (pathBasename s).data, c ≠ '/' := by
  intro c hc
  unfold pathBasename at hc
  simp only [List.mem_reverse] at hc
  have h := List.mem_takeWhile_imp hc
  simpa using h

/-- With a schedule type among the three known ones, the next-run
computation rejects exactly the invalid schedule values. -/
theorem computeNextRun_eq_none_iff (env : IpcEnv) (styp sv : String)
    (h : styp = "cron" ∨ styp = "interval" ∨ styp = "once") :
    (computeNextRun env styp sv = none ↔ scheduleValueOk env styp sv = false) := by
  rcases h with h | h | h <;> subst h <;> unfold computeNextRun scheduleValueOk <;> simp
  · cases env.cronNext sv <;> simp
  · cases hp : parseIntJS sv with
    | none => simp
    | some ms =>
      by_cases hms : ms ≤ 0
      · simp [hms, Int.not_lt.mpr hms]
      · simp [hms, Int.not_le.mp hms]
  · cases env.parseDate sv <;> simp

/-- C2: the mailbox's decisions are computed from the enclosing namespace
and the action's target alone, never from the payload-declared identity
fields: changing the groupFolder or isMain fields of a task request, or the
groupFolder or sender fields of a message request, changes nothing about
how it is processed. -/
theorem C2_decisions_ignore_payload_identity_fields :
    (∀ (env : IpcEnv) (d : TaskIpcData) (src : String) (b : Bool) (st : HostState)
        (g : Option String) (m : Option Bool),
        processTaskIpc env { d with groupFolder := g, isMain := m } src b st
          = processTaskIpc env d src b st)
    ∧ (∀ (fsys : List String) (base : String) (regs : List (String × RegisteredGroup))
        (src : String) (b : Bool) (d : MessageIpcData) (g s : Option String),
        processMessageIpc fsys base regs src b { d with groupFolder := g, sender := s }
          = processMessageIpc fsys base regs src b d) := by
  constructor
  · intro env d src b st g m
    cases d
    simp only [processTaskIpc, handleScheduleTask, handlePauseTask, handleResumeTask,
      handleCancelTask, handleRefreshGroups, handleRegisterGroup, handleRestart,
      handleRebuild, handleTestContainerBuild, handlePullAndDeploy]
  · intro fsys base regs src b d g s
    cases d
    simp only [processMessageIpc]

/-- C3: a schedule_task request from a non-main namespace whose resolved
target group folder differs from the source namespace is rejected: the
state is unchanged (in particular no task record is created) and nothing
else happens. -/
theorem C3_crossgroup_schedule_task_rejected
    (env : IpcEnv) (st : HostState) (d : TaskIpcData) (src tj : String)
    (g : RegisteredGroup)
    (hty : d.type = "schedule_task")
    (htj : d.targetJid = some tj)
    (hlook : lookupGroup st.registeredGroups tj = some g)
    (hne : g.folder ≠ src) :
    processTaskIpc env d src false st = (st, noEffects) := by
  unfold processTaskIpc handleScheduleTask
  rw [hty]
  simp [htj, hlook, hne, ite_self]

/-- Closed instance of the cross-group rejection theorem: alice schedules a
task targeting bob's conversation and the state is left untouched. -/
theorem C3_crossgroup_schedule_task_rejected_witness :
    processTaskIpc envC dC3 "alice" false stBob = (stBob, noEffects) :=
  C3_crossgroup_schedule_task_rejected envC stBob dC3 "alice" "wa:bob" gBob rfl rfl
    (by decide) (by decide)

/-- C4: schedule_task accepts a request only when the schedule value is
valid for its schedule type (a cron string that parses, an interval that
parses to strictly positive milliseconds, a once value that parses to a
valid instant); with an invalid value the request is rejected with the
state unchanged and no task record created. -/
theorem C4_schedule_value_validated
    (env : IpcEnv) (st : HostState) (d : TaskIpcData) (src : String) (b : Bool)
    (styp : String)
    (hty : d.type = "schedule_task")
    (hst : d.schedule_type = some styp)
    (henum : styp = "cron" ∨ styp = "interval" ∨ styp = "once") :
    (scheduleValueOk env styp (d.schedule_value.getD "") = false →
        processTaskIpc env d src b st = (st, noEffects))
    ∧ ((processTaskIpc env d src b st).1.tasks ≠ st.tasks →
        scheduleValueOk env styp (d.schedule_value.getD "") = true) := by
  have hmain : scheduleValueOk env styp (d.schedule_value.getD "") = false →
      processTaskIpc env d src b st = (st, noEffects) := by
    intro hbad
    have hcnr : computeNextRun env styp (d.schedule_value.getD "") = none :=
      (computeNextRun_eq_none_iff env styp _ henum).mpr hbad
    unfold processTaskIpc handleScheduleTask
    rw [hty]
    rcases hl : lookupGroup st.registeredGroups (d.targetJid.getD "") with _ | g
    · simp [hl, ite_self]
    · simp [hl, hst, hcnr, ite_self]
  refine ⟨hmain, fun hch => ?_⟩
  by_cases hok : scheduleValueOk env styp (d.schedule_value.getD "") = true
  · exact hok
  · rw [hmain (by simpa using hok)] at hch
    exact absurd rfl hch

/-- Closed instance of the validation theorem: a non-positive interval value
is rejected with no task created. -/
theorem C4_schedule_value_validated_witness :
    processTaskIpc envC dC4 "bob" false stBob = (stBob, noEffects) :=
  (C4_schedule_value_validated envC stBob dC4 "bob" false "interval" rfl rfl
    (Or.inr (Or.inl rfl))).1 (by decide)

/-- C6: a schedule_task request of type once whose value is the instant
2026-02-01T15:30:00 creates a task record whose next_run is exactly that
instant as parsed in the configured schedule time zone, serialized in the
canonical ISO form. -/
theorem C6_once_next_run_is_parsed_instant
    (env : IpcEnv) (st : HostState) (d : TaskIpcData) (src tj p : String) (b : Bool)
    (g : RegisteredGroup) (t : Nat)
    (hty : d.type = "schedule_task")
    (hp : d.prompt = some p) (hpne : p ≠ "")
    (hst : d.schedule_type = some "once")
    (hsv : d.schedule_value = some "2026-02-01T15:30:00")
    (htj : d.targetJid = some tj) (htjne : tj ≠ "")
    (hlook : lookupGroup st.registeredGroups tj = some g)
    (hauth : b = true ∨ g.folder = src)
    (hdate : env.parseDate "2026-02-01T15:30:00" = some t) :
    ∃ task : Task, (processTaskIpc env d src b st).1.tasks = st.tasks ++ [task]
      ∧ task.next_run = some (env.isoOfMs t)
      ∧ task.schedule_type = "once"
      ∧ task.schedule_value = "2026-02-01T15:30:00" := by
  unfold processTaskIpc handleScheduleTask
  rw [hty]
  have hcond : (!b && (g.folder != src)) = false := by
    rcases hauth with h | h <;> simp [h]
  have hP : p.isEmpty = false := by
    cases hh : p.isEmpty
    · rfl
    · exact absurd (String.isEmpty_iff p |>.mp hh) hpne
  have hT : tj.isEmpty = false := by
    cases hh : tj.isEmpty
    · rfl
    · exact absurd (String.isEmpty_iff tj |>.mp hh) htjne
  simp [hp, hst, hsv, htj, hlook, hcond, truthy, computeNextRun, hdate, createTask,
    hP, hT]
  rw [if_pos (show ("once" : String).isEmpty = false
      ∧ ("2026-02-01T15:30:00" : String).isEmpty = false from ⟨by decide, by decide⟩)]
  exact ⟨_, rfl, rfl, rfl, rfl⟩

/-- Closed instance of the once next_run theorem: the created record's
next_run is the serialized parsed instant, so the task list grows by one. -/
theorem C6_once_next_run_is_parsed_instant_witness :
    (processTaskIpc envC dC6 "bob" false stBob).1.tasks.length
      = stBob.tasks.length + 1 := by
  obtain ⟨task, htasks, hnr, hst, hsv⟩ :=
    C6_once_next_run_is_parsed_instant envC stBob dC6 "bob" "wa:bob" "do it" false
      gBob 1769959800000 rfl rfl (by decide) rfl rfl rfl (by decide) (by decide)
      (Or.inr rfl) (by decide)
  rw [htasks]
  simp

/-- C8: a message request with the required fields is delivered exactly when
the source namespace is the main namespace or the target jid resolves to a
registered group whose folder is the source namespace; otherwise nothing is
sent. -/
theorem C8_message_delivered_iff_authorized
    (fsys : List String) (base : String) (regs : List (String × RegisteredGroup))
    (src : String) (b : Bool) (d : MessageIpcData)
    (hty : d.type = "message") (hjid : truthy d.chatJid = true)
    (htxt : truthy d.text = true) :
    ((processMessageIpc fsys base regs src b d).isSome = true
      ↔ (b = true ∨ ∃ g, lookupGroup regs (d.chatJid.getD "") = some g ∧ g.folder = src)) := by
  unfold processMessageIpc
  rw [hty]
  rcases hl : lookupGroup regs (d.chatJid.getD "") with _ | g
  · cases b <;> simp [hjid, htxt, hl]
  · by_cases hfs : g.folder = src <;> cases b <;> simp [hjid, htxt, hl, hfs]

/-- Closed instance of the delivery theorem: bob's own message to its own
registered chat is delivered. -/
theorem C8_message_delivered_iff_authorized_witness :
    (processMessageIpc [] "/data/ipc" [("wa:bob", gBob)] "bob" false
      { type := "message", chatJid := some "wa:bob", text := some "hi" }).isSome = true :=
  (C8_message_delivered_iff_authorized [] "/data/ipc" [("wa:bob", gBob)] "bob" false
      { type := "message", chatJid := some "wa:bob", text := some "hi" } rfl rfl rfl).mpr
    (Or.inr ⟨gBob, by decide, rfl⟩)

/-- C9, counterexample: the claim states that every attachment entry
containing a path separator or traversal component is dropped and that no
forwarded entry can leave the namespace's attachments directory.  The bare
traversal entry dot-dot equals its own basename, and joining it to the
attachments directory yields the namespace directory itself, which exists,
so the source forwards a path outside the attachments directory. -/
theorem C9_dotdot_attachment_forwarded :
    processMessageIpc fsC "/data/ipc" regsC "alice" false msgDotDot
      = some ("dc:1", "hi", ["/data/ipc/alice"])
    ∧ strStartsWith "/data/ipc/alice" "/data/ipc/alice/attachments" = false := by
  exact ⟨by decide, by decide⟩

/-- C9, amended: an attachment entry is forwarded only when it equals its
own basename (hence contains no path separator) and the path obtained by
joining it to the source namespace's attachments directory exists; entries
with separators and entries naming non-existent files are dropped, but bare
traversal entries such as dot-dot pass the basename check and may resolve
outside the attachments directory. -/
theorem C9_amended_attachments
    (fsys : List String) (base src : String)
    (regs : List (String × RegisteredGroup)) (b : Bool) (d : MessageIpcData)
    (jid txt : String) (sent : List String)
    (hres : processMessageIpc fsys base regs src b d = some (jid, txt, sent)) :
    ∀ pth ∈ sent, pth ∈ fsys ∧ ∃ f ∈ d.files.getD [],
      pathBasename f = f ∧ (∀ c ∈ f.data, c ≠ '/')
      ∧ pth = pathJoin (pathJoinList [base, src, "attachments"]) f := by
  intro pth hp
  unfold processMessageIpc at hres
  split at hres
  · dsimp only at hres
    split at hres
    · simp only [Option.some.injEq, Prod.mk.injEq] at hres
      obtain ⟨hjid, htxt, hsent⟩ := hres
      subst hsent
      rw [List.mem_filter] at hp
      obtain ⟨hpmem, hpfs⟩ := hp
      rw [List.mem_map] at hpmem
      obtain ⟨f, hfmem, rfl⟩ := hpmem
      rw [List.mem_filter] at hfmem
      obtain ⟨hfin, hfbase⟩ := hfmem
      have hbe : pathBasename f = f := by simpa using hfbase
      refine ⟨by simpa using hpfs, f, hfin, hbe, fun c hc => ?_, rfl⟩
      rw [← hbe] at hc
      exact pathBasename_no_slash f c hc
    · exact absurd hres (by simp)
  · exact absurd hres (by simp)

/-- Closed instance of the amended attachment theorem: a bare existing
filename is forwarded and the forwarded path exists in the filesystem. -/
theorem C9_amended_attachments_witness :
    "/data/ipc/alice/attachments/report.pdf" ∈ fsC2 :=
  ((C9_amended_attachments fsC2 "/data/ipc" "alice" regsC false msgGood "dc:1" "hi"
      ["/data/ipc/alice/attachments/report.pdf"] (by decide))
    "/data/ipc/alice/attachments/report.pdf" (by decide)).1

end Nanoclawbster
